import Mathlib

/-!
Verification of the `quant_screener` backend module of the vnstock screener.

The Python source is shallowly embedded here: pure computations become Lean
functions over `ℚ`/`ℕ`/`List`, fallible or absent data becomes `Option`,
the process-wide disk cache becomes explicit state passing, and the two
sources of nondeterminism (the `random.sample` peer selection and the
`as_completed` task-completion order of the thread pool) become explicit
function/list parameters, so that a property claimed "for every run" is a
statement quantified over those parameters.
-/

namespace VnScreener

/-! ## Character-list substring machinery

The scorer rebuilds its per-rule breakdown by Python substring tests
(`"..." in ", ".join(notes)`).  We model Python's `in` on strings as a
contiguous-run search over the underlying character lists. -/

/-- `startsWithChars p t`: the character list `p` is an initial run of `t`. -/
def startsWithChars : List Char → List Char → Bool
  | [], _ => true
  | _ :: _, [] => false
  | a :: as, b :: bs => a == b && startsWithChars as bs

/-- `hasSubChars p t`: `p` occurs as a contiguous run inside `t`.  This is
Python's `p in t` for strings. -/
def hasSubChars (p : List Char) : List Char → Bool
  | [] => p.isEmpty
  | b :: bs => startsWithChars p (b :: bs) || hasSubChars p bs

/-- String-level wrapper for the Python substring test `p in t`. -/
def containsSubStr (p t : String) : Bool :=
  hasSubChars p.data t.data

/-- `", ".join` on character lists, as the Python scorer joins its note
lists before substring matching. -/
def joinChars : List (List Char) → List Char
  | [] => []
  | [a] => a
  | a :: b :: rest => a ++ ',' :: ' ' :: joinChars (b :: rest)

/-! ## Decimal printing

The growth rationale note interpolates `int(ni_growth*100)` into its text.
We model Python's decimal rendering of an integer so that substring
reasoning about the note can cover every possible percentage. -/

def digitChars : List Char := ['0', '1', '2', '3', '4', '5', '6', '7', '8', '9']

/-- Decimal digits of a natural number, most significant first. -/
def natStr (n : ℕ) : List Char :=
  if n < 10 then [Char.ofNat (48 + n)]
  else natStr (n / 10) ++ [Char.ofNat (48 + n % 10)]
termination_by n
decreasing_by exact Nat.div_lt_self (by omega) (by omega)

/-- Python's `str` on an `int`. -/
def intStr (i : ℤ) : List Char :=
  if i < 0 then '-' :: natStr i.natAbs else natStr i.natAbs

/-! ## Rationale notes and atomic score pieces

Each fired rule of `calculate_stock_score` appends one fixed Vietnamese
rationale string; the growth note interpolates the percentage. -/

/-- The growth note `f"Tăng trưởng mạnh (+{int(ni_growth*100)}%)"`. -/
def growthNoteChars (pct : ℤ) : List Char :=
  "Tăng trưởng mạnh (+".data ++ intStr pct ++ "%)".data

/-- Fundamental notes when a snapshot is present, in source order
(valuation, growth, margin, health). -/
def faNotesPresent (bVal bGrowth bMargin bHealth : Bool) (pct : ℤ) : List (List Char) :=
  (if bVal then ["Định giá hấp dẫn".data] else [])
  ++ (if bGrowth then [growthNoteChars pct] else [])
  ++ (if bMargin then ["Biên lợi nhuận cải thiện".data] else [])
  ++ (if bHealth then ["Tài chính lành mạnh".data] else [])

/-- Fundamental sub-score: each of the four rules awards 10 or 0. -/
def faScore (bVal bGrowth bMargin bHealth : Bool) : ℕ :=
  (if bVal then 10 else 0) + (if bGrowth then 10 else 0)
  + (if bMargin then 10 else 0) + (if bHealth then 10 else 0)

/-- Technical notes in source order (trend, momentum, oscillator, volume),
driven by the condition booleans of the four `if`/`elif` blocks. -/
def taNotes (tA tS mS mW rA rB vP vS vW : Bool) : List (List Char) :=
  (if tA then [if tS then "Xu hướng tăng mạnh".data else "Trên đường xu hướng".data] else [])
  ++ (if mS then ["Động lực MUA đang tăng".data] else if mW then ["Động lực tích cực".data] else [])
  ++ (if rA then ["Vùng tích lũy tốt".data] else if rB then ["Quá bán - Cơ hội đảo chiều".data] else [])
  ++ (if vP then (if vS then ["Dòng tiền lớn đang vào".data] else if vW then ["Khối lượng đột biến".data] else []) else [])

/-- Technical sub-score accumulation of the four `if`/`elif` blocks. -/
def taScore (tA tS mS mW rA rB vP vS vW : Bool) : ℕ :=
  (if tA then 5 + (if tS then 10 else 0) else 0)
  + (if mS then 15 else if mW then 10 else 0)
  + (if rA then 15 else if rB then 15 else 0)
  + (if vP then (if vS then 15 else if vW then 10 else 0) else 0)

/-- One entry of the per-rule breakdown dictionaries. -/
structure RuleDetail where
  score : ℕ
  maxPts : ℕ
  desc : String
deriving DecidableEq

structure FaDetail where
  valuation : RuleDetail
  growth : RuleDetail
  margin : RuleDetail
  health : RuleDetail
deriving DecidableEq

structure TaDetail where
  trend : RuleDetail
  momentum : RuleDetail
  rsi : RuleDetail
  volume : RuleDetail
deriving DecidableEq

/-- The `fa_detail` dictionary: valuation re-evaluates the same condition
expression as the award site; the other three substring-match the joined
note text. -/
def fa_detailOf (bVal : Bool) (j : List Char) : FaDetail :=
  { valuation := ⟨if bVal then 10 else 0, 10, "P/E thấp hơn trung vị ngành"⟩
    growth := ⟨if hasSubChars "Tăng trưởng".data j then 10 else 0, 10,
      "Lợi nhuận và doanh thu tăng >15%"⟩
    margin := ⟨if hasSubChars "Biên lợi nhuận".data j then 10 else 0, 10,
      "Biên lợi nhuận gộp cải thiện"⟩
    health := ⟨if hasSubChars "Tài chính lành mạnh".data j then 10 else 0, 10,
      "Nợ/Vốn CSH < 0.8"⟩ }

/-- The `ta_detail` dictionary, substring-matched from the joined notes. -/
def ta_detailOf (j : List Char) : TaDetail :=
  { trend := ⟨if hasSubChars "Xu hướng tăng".data j then 15
      else if hasSubChars "Trên đường".data j then 5 else 0, 15, "Giá trên đường Ichimoku"⟩
    momentum := ⟨if hasSubChars "Động lực MUA".data j then 15
      else if hasSubChars "Động lực tích cực".data j then 10 else 0, 15, "MACD dương và tăng"⟩
    rsi := ⟨if hasSubChars "tích lũy".data j || hasSubChars "đảo chiều".data j then 15 else 0,
      15, "RSI trong vùng 45-65 hoặc <30"⟩
    volume := ⟨if hasSubChars "Dòng tiền".data j then 15
      else if hasSubChars "đột biến".data j then 10 else 0, 15, "Khối lượng cao + Nến tăng"⟩ }

/-! ## Price series and the indicator battery -/

/-- One OHLCV bar, with the standardized column names of `fetch_market_data`. -/
structure Bar where
  Open : ℚ
  High : ℚ
  Low : ℚ
  Close : ℚ
  Volume : ℚ
deriving DecidableEq

/-- `ewm(span, adjust=False).mean()`: recursive exponential smoothing with
seed `y₀ = x₀` and `y_t = (1-α) y_{t-1} + α x_t`, `α = 2/(span+1)`. -/
def ewmSeries (span : ℚ) (xs : List ℚ) : List ℚ :=
  (xs.foldl (fun acc x =>
    match acc with
    | [] => [x]
    | y :: _ => ((2 / (span + 1)) * x + (1 - 2 / (span + 1)) * y) :: acc) []).reverse

/-- The last `n` elements of a list (fewer if the list is shorter). -/
def lastN (n : ℕ) (l : List α) : List α := l.drop (l.length - n)

def maxOf : List ℚ → Option ℚ
  | [] => none
  | x :: xs => some (xs.foldl max x)

def minOf : List ℚ → Option ℚ
  | [] => none
  | x :: xs => some (xs.foldl min x)

def meanOf : List ℚ → Option ℚ
  | [] => none
  | x :: xs => some ((x :: xs).sum / ((x :: xs).length : ℚ))

/-- Final value of `rolling(window=w).max()`: `none` models the NaN that
pandas yields when fewer than `w` rows exist. -/
def rollMaxLast (w : ℕ) (l : List ℚ) : Option ℚ :=
  if l.length < w then none else maxOf (lastN w l)

def rollMinLast (w : ℕ) (l : List ℚ) : Option ℚ :=
  if l.length < w then none else minOf (lastN w l)

def rollMeanLast (w : ℕ) (l : List ℚ) : Option ℚ :=
  if l.length < w then none else meanOf (lastN w l)

/-- `df['Volume'].iloc[-21:-1].mean()`: trailing 20-bar average volume
excluding the current bar (`none` models NaN when the slice is empty). -/
def avgVol20 (bars : List Bar) : Option ℚ :=
  meanOf (lastN 20 (bars.map Bar.Volume).dropLast)

/-- The condition booleans of the four technical `if`/`elif` blocks. -/
structure TaConds where
  trendAbove : Bool
  trendStrong : Bool
  momStrong : Bool
  momWeak : Bool
  rsiZone : Bool
  rsiOversold : Bool
  volPositive : Bool
  volStrong : Bool
  volWeak : Bool
deriving DecidableEq

def noTaConds : TaConds :=
  ⟨false, false, false, false, false, false, false, false, false⟩

/-- The indicator battery evaluated at the last bar, as in the technical
part of `calculate_stock_score`.  A comparison against an undefined
(NaN) rolling value is `false`, as in pandas.  The `hist.iloc[-2]` access
presumes at least two bars, which `fetch_market_data` guarantees (≥ 50). -/
def taCondsOf (bars : List Bar) : TaConds :=
  let close := bars.map Bar.Close
  let high := bars.map Bar.High
  let low := bars.map Bar.Low
  let opens := bars.map Bar.Open
  let vols := bars.map Bar.Volume
  let exp12 := ewmSeries 12 close
  let exp26 := ewmSeries 26 close
  let macd := List.zipWith (fun a b => a - b) exp12 exp26
  let signal := ewmSeries 9 macd
  let hist := List.zipWith (fun a b => a - b) macd signal
  let tenkan : Option ℚ := match rollMaxLast 9 high, rollMinLast 9 low with
    | some hi, some lo => some ((hi + lo) / 2)
    | _, _ => none
  let kijun : Option ℚ := match rollMaxLast 26 high, rollMinLast 26 low with
    | some hi, some lo => some ((hi + lo) / 2)
    | _, _ => none
  let deltas := List.zipWith (fun a b => a - b) close.tail close
  let gain := (0 : ℚ) :: deltas.map (fun d => if 0 < d then d else 0)
  let loss := (0 : ℚ) :: deltas.map (fun d => if d < 0 then -d else 0)
  let gAvg := rollMeanLast 14 gain
  let lAvg := rollMeanLast 14 loss
  let rsiLast : Option ℚ := match gAvg, lAvg with
    | some g, some lv =>
      if lv = 0 then (if g = 0 then none else some 100)
      else some (100 - 100 / (1 + g / lv))
    | _, _ => none
  let currentPrice := close.getLastD 0
  let currentVol := vols.getLastD 0
  let spread := |close.getLastD 0 - opens.getLastD 0|
  let avgSpread := rollMeanLast 20 (List.zipWith (fun c o => |c - o|) close opens)
  let avgVol := avgVol20 bars
  { trendAbove := match kijun with
      | some k => decide (k < currentPrice)
      | none => false
    trendStrong := match tenkan, kijun with
      | some t, some k => decide (k < t)
      | _, _ => false
    momStrong := decide (signal.getLastD 0 < macd.getLastD 0) && decide (0 < hist.getLastD 0)
    momWeak := decide (hist.dropLast.getLastD 0 < hist.getLastD 0) && decide (0 < macd.getLastD 0)
    rsiZone := match rsiLast with
      | some r => decide (45 ≤ r) && decide (r ≤ 65)
      | none => false
    rsiOversold := match rsiLast with
      | some r => decide (r < 30)
      | none => false
    volPositive := match avgVol with
      | some a => decide (0 < a)
      | none => false
    volStrong := match avgVol, avgSpread with
      | some a, some s => decide (13/10 * a < currentVol) && decide (12/10 * s < spread)
          && decide (opens.getLastD 0 < close.getLastD 0)
      | _, _ => false
    volWeak := match avgVol with
      | some a => decide (13/10 * a < currentVol)
      | none => false }

/-! ## Financial snapshot model

Record fields are `Option ℚ`: `none` models a key that is missing from the
provider's row (the Python code reads every field through `.get` with a
default).  The cached snapshot is the dict
`{'ratio': ratio.iloc[0], 'cashflow': cashflow, 'income': income}`. -/

structure RatioRow where
  priceToEarning : Option ℚ
  pe : Option ℚ
  debtOnEquity : Option ℚ
  debtToEquity : Option ℚ
deriving DecidableEq

structure IncomeRow where
  netIncome : Option ℚ
  postTaxProfit : Option ℚ
  revenue : Option ℚ
  grossProfit : Option ℚ
deriving DecidableEq

structure Financials where
  ratio : RatioRow
  cashflow : List IncomeRow
  income : List IncomeRow
deriving DecidableEq

/-- Python truthiness of an optional number: `None` and `0` are falsy. -/
def truthy : Option ℚ → Bool
  | none => false
  | some x => decide (x ≠ 0)

/-- `a.get(k1, a.get(k2))`: first key if present, else the second. -/
def orOpt (a b : Option ℚ) : Option ℚ :=
  match a with
  | some v => some v
  | none => b

/-- Growth and margin-expansion rules of the scorer (the block guarded by
`len(inc) >= 2`), returning the two condition booleans and the integer
percentage interpolated into the growth note. -/
def faGrowthMargin (inc : List IncomeRow) : Bool × Bool × ℤ :=
  match inc with
  | curr :: prev :: _ =>
    let current_np := (curr.netIncome).getD ((curr.postTaxProfit).getD 0)
    let prev_np := (prev.netIncome).getD ((prev.postTaxProfit).getD 1)
    let current_rev := (curr.revenue).getD 0
    let prev_rev := (prev.revenue).getD 1
    let ni_growth := (current_np - prev_np) / |prev_np|
    let rev_growth := (current_rev - prev_rev) / prev_rev
    let bGrowth := decide (0 < prev_np) && decide (0 < prev_rev)
      && decide (3/20 < ni_growth) && decide (1/10 < rev_growth)
    let curr_gm := (curr.grossProfit).getD 0 / (if current_rev ≠ 0 then current_rev else 1)
    let prev_gm := (prev.grossProfit).getD 0 / (if prev_rev ≠ 0 then prev_rev else 1)
    let bMargin := decide (prev_gm * (21/20) < curr_gm)
    (bGrowth, bMargin, ⌊ni_growth * 100⌋)
  | _ => (false, false, 0)

/-! ## Sector median P/E -/

def insertAsc (x : ℚ) : List ℚ → List ℚ
  | [] => [x]
  | y :: ys => if x ≤ y then x :: y :: ys else y :: insertAsc x ys

def sortAscQ : List ℚ → List ℚ
  | [] => []
  | x :: xs => insertAsc x (sortAscQ xs)

/-- `np.median`: middle element of the sorted values, or the mean of the
two middle elements for an even count. -/
def medianQ (l : List ℚ) : ℚ :=
  let s := sortAscQ l
  let n := s.length
  if n % 2 = 1 then s.getD (n / 2) 0
  else (s.getD (n / 2 - 1) 0 + s.getD (n / 2) 0) / 2

/-- `get_sector_median_pe(sector_name, all_tickers_df)`.

The universe is a list of `(ticker, organName)` pairs (the code uses the
`organName` column as the sector label).  `pick` models the outcome of
`random.sample(population, k)`: a run of the program corresponds to some
`pick` that returns `k` distinct members of the population.  `peerPE`
models the (uncached) `financial_ratio` fetch of a peer's P/E: `none` for
a failed/empty fetch or a missing key. -/
def get_sector_median_pe (pick : List String → ℕ → List String)
    (peerPE : String → Option ℚ) (sector_name : String)
    (all_tickers : List (String × String)) : Option ℚ :=
  let sector_tickers := (all_tickers.filter (fun p => p.2 == sector_name)).map Prod.fst
  if sector_tickers.length < 3 then none
  else
    let sample_size := min sector_tickers.length 5
    let sampled := pick sector_tickers sample_size
    let pe_values := sampled.filterMap (fun t =>
      match peerPE t with
      | some pe => if 0 < pe then some pe else none
      | none => none)
    if pe_values.isEmpty then none else some (medianQ pe_values)

/-- Modelled from the spec: `median_pe(sector, universe)` of §4.3 with the
sample-size cap `k` left as a parameter — "filter universe to symbols
sharing the sector label; if fewer than 3 remain, return absent; otherwise
sample up to `k` peers, fetch each peer's price/earnings ratio, discard
non-positive or absent values, and return the median of the remaining
values, or absent if none survive."  The spec states `k = 10`. -/
def median_pe_spec (k : ℕ) (pick : List String → ℕ → List String)
    (peerPE : String → Option ℚ) (sector : String)
    (univ : List (String × String)) : Option ℚ :=
  let peers := (univ.filter (fun p => p.2 == sector)).map Prod.fst
  if peers.length < 3 then none
  else
    let sampled := pick peers (min peers.length k)
    let survivors := (sampled.filterMap peerPE).filter (fun pe => decide (0 < pe))
    if survivors.isEmpty then none else some (medianQ survivors)

/-- Lines 166–172 of the scorer: look the symbol up in the universe table,
take `organName` of the first match as the sector, and compute the sector
median; absent when the symbol is not listed. -/
def sectorMedianFor (pick : List String → ℕ → List String)
    (peerPE : String → Option ℚ) (sector_info : List (String × String))
    (symbol : String) : Option ℚ :=
  match sector_info.filter (fun p => p.1 == symbol) with
  | [] => none
  | info :: _ => get_sector_median_pe pick peerPE info.2 sector_info

/-! ## The scorer -/

structure ScoreData where
  symbol : String
  score_fa : ℕ
  score_ta : ℕ
  total_score : ℕ
  pe : ℚ
  roe : ℚ
  recommendation : String
  notes_fa : String
  notes_ta : String
  fa_detail : FaDetail
  ta_detail : TaDetail
  df : Option (List Bar)
deriving DecidableEq

/-- `fetch_market_data`: an absent, empty or shorter-than-50-bar series is
collapsed to absent.  The raw argument models the upstream
`stock_historical_data` response (`none` = fetch failed). -/
def fetch_market_data (raw : Option (List Bar)) : Option (List Bar) :=
  match raw with
  | none => none
  | some df => if df.length < 50 then none else some df

/-- Body of `calculate_stock_score` after the both-absent early return.
`roe` is always 0 in the output: the Python function never assigns `roe`
when a snapshot is present and falls back to 0 via its `locals()` check. -/
def scoreBody (pick : List String → ℕ → List String) (peerPE : String → Option ℚ)
    (sector_info : List (String × String)) (symbol : String)
    (fin : Option Financials) (mdf : Option (List Bar)) : ScoreData :=
  let peVar : Option ℚ := match fin with
    | some f => orOpt f.ratio.priceToEarning f.ratio.pe
    | none => some 0
  let smpeVar : Option ℚ := match fin with
    | some _ => sectorMedianFor pick peerPE sector_info symbol
    | none => none
  let bVal : Bool := truthy peVar && truthy smpeVar
    && decide (peVar.getD 0 < 9/10 * smpeVar.getD 0)
  let gm : Bool × Bool × ℤ := match fin with
    | some f => faGrowthMargin f.income
    | none => (false, false, 0)
  let bHealth : Bool := match fin with
    | some f => decide ((f.ratio.debtOnEquity).getD ((f.ratio.debtToEquity).getD 100) ≤ 4/5)
    | none => false
  let score_fa : ℕ := match fin with
    | some _ => faScore bVal gm.1 gm.2.1 bHealth
    | none => 0
  let fa_notes : List (List Char) := match fin with
    | some _ => faNotesPresent bVal gm.1 gm.2.1 bHealth gm.2.2
    | none => ["(Không có dữ liệu tài chính)".data]
  let dfOk : Bool := match mdf with
    | some bars => !bars.isEmpty
    | none => false
  let conds : TaConds := match mdf with
    | some bars => if bars.isEmpty then noTaConds else taCondsOf bars
    | none => noTaConds
  let score_ta : ℕ := if dfOk then
      taScore conds.trendAbove conds.trendStrong conds.momStrong conds.momWeak
        conds.rsiZone conds.rsiOversold conds.volPositive conds.volStrong conds.volWeak
    else 0
  let ta_notes : List (List Char) := if dfOk then
      taNotes conds.trendAbove conds.trendStrong conds.momStrong conds.momWeak
        conds.rsiZone conds.rsiOversold conds.volPositive conds.volStrong conds.volWeak
    else ["(Không có dữ liệu giá)".data]
  let total_score := score_fa + score_ta
  { symbol := symbol
    score_fa := score_fa
    score_ta := score_ta
    total_score := total_score
    pe := if truthy peVar then peVar.getD 0 else 0
    roe := 0
    recommendation := if 80 ≤ total_score then "MUA MẠNH"
      else if 60 ≤ total_score then "THEO DÕI" else "CHỜ"
    notes_fa := ⟨joinChars fa_notes⟩
    notes_ta := ⟨joinChars ta_notes⟩
    fa_detail := fa_detailOf bVal (joinChars fa_notes)
    ta_detail := ta_detailOf (joinChars ta_notes)
    df := mdf }

/-- `calculate_stock_score(symbol, sector_info_df)`, with the two data
fetches supplied as arguments: `fin` is the `fetch_full_financials`
result and `mdf` the `fetch_market_data` result. -/
def calculate_stock_score (pick : List String → ℕ → List String)
    (peerPE : String → Option ℚ) (sector_info : List (String × String))
    (symbol : String) (fin : Option Financials) (mdf : Option (List Bar)) :
    Option ScoreData :=
  if fin = none ∧ mdf = none then none
  else some (scoreBody pick peerPE sector_info symbol fin mdf)

/-! ## Disk cache

The on-disk pickle cache becomes explicit state: a map from symbol to the
stored snapshot together with its write time (seconds).  `writeOk` models
whether the disk write succeeds; `save_to_cache` swallows a failure. -/

structure CacheState where
  store : String → Option (Financials × ℚ)

def CACHE_EXPIRY_HOURS : ℚ := 6

/-- `load_from_cache`: a hit is valid only while its age is below the TTL. -/
def load_from_cache (st : CacheState) (now : ℚ) (symbol : String) : Option Financials :=
  match st.store symbol with
  | none => none
  | some dm => if (now - dm.2) / 3600 < CACHE_EXPIRY_HOURS then some dm.1 else none

/-- `save_to_cache`: best-effort write; a failure leaves the store as-is. -/
def save_to_cache (st : CacheState) (now : ℚ) (writeOk : Bool) (symbol : String)
    (data : Financials) : CacheState :=
  if writeOk then ⟨fun s => if s == symbol then some (data, now) else st.store s⟩ else st

/-- `fetch_full_financials`: read-through cache over the three upstream
fetches (`ratio`, `cashflow`, `income`); any absent or empty piece makes
the whole snapshot absent and nothing is cached. -/
def fetch_full_financials (st : CacheState) (now : ℚ) (writeOk : Bool) (symbol : String)
    (ratioF : Option RatioRow) (cashF incF : Option (List IncomeRow)) :
    Option Financials × CacheState :=
  match load_from_cache st now symbol with
  | some cached => (some cached, st)
  | none =>
    match ratioF with
    | none => (none, st)
    | some ratio =>
      match cashF with
      | none => (none, st)
      | some [] => (none, st)
      | some (c :: cs) =>
        match incF with
        | none => (none, st)
        | some [] => (none, st)
        | some (i :: irest) =>
          let result : Financials := ⟨ratio, c :: cs, i :: irest⟩
          (some result, save_to_cache st now writeOk symbol result)

/-! ## The screening orchestrator -/

def VN100_TICKERS : List String := [
  "ACB", "BCM", "BID", "BVH", "CTG", "FPT", "GAS", "GVR", "HDB", "HPG",
  "MBB", "MSN", "MWG", "PLX", "POW", "SAB", "SHB", "SSB", "SSI", "STB",
  "TCB", "TPB", "VCB", "VHM", "VIB", "VIC", "VJC", "VNM", "VPB", "VRE",
  "ACG", "APH", "ASM", "BCG", "BMP", "BWE", "CMG", "CTD", "DBC", "DCM",
  "DIG", "DGC", "DGW", "DHC", "DXG", "EIB", "FTS", "GEX", "GMD", "HAG",
  "HAH", "HCM", "HDC", "HDG", "HHS", "HPX", "HSG", "HT1", "IJC", "KBC",
  "KDC", "KDH", "KOS", "LPB", "MSB", "NKG", "NLG", "NVL", "OCB", "ORS",
  "PAN", "PC1", "PDR", "PHR", "PNJ", "PVD", "PVT", "REE", "SBT", "SCS",
  "SHI", "SJS", "SZC", "TCH", "TDM", "THG", "TIG", "TLG", "TMS", "TNH",
  "VCI", "VGC", "VHC", "VIX", "VND", "VOS", "VPI", "VSC", "VSH"]

/-- The candidate page of `run_screener`: Python slice
`VN100_TICKERS[(page-1)*limit : (page-1)*limit + limit]` with the
empty-slice fallback, but only in the `limit <= 50` branch; the bulk branch
takes the first `limit` symbols regardless of `page`.  (Faithful for
`page ≥ 1`, where the Python slice indices are non-negative.) -/
def candidatesFor (limit page : ℕ) : List String :=
  let start_idx := (page - 1) * limit
  if limit ≤ 50 then
    let c := (VN100_TICKERS.drop start_idx).take limit
    if c.isEmpty then VN100_TICKERS.take limit else c
  else VN100_TICKERS.take limit

/-- Modelled from the spec: §4.6's page arithmetic
`[ (page-1)*limit, page*limit )` over the universe with the empty-slice
fallback to the first `limit` symbols, for every limit and page. -/
def candidates_spec (limit page : ℕ) : List String :=
  let c := (VN100_TICKERS.drop ((page - 1) * limit)).take limit
  if c.isEmpty then VN100_TICKERS.take limit else c

/-- Result of one scoring task: `calculate_stock_score` succeeded, returned
`None` (both fetches failed), or raised an unexpected exception. -/
inductive TaskOutcome where
  | success : ScoreData → TaskOutcome
  | noData : TaskOutcome
  | fault : TaskOutcome
deriving DecidableEq

/-- `process_single_stock`: the per-task `try/except` converts an
unexpected exception into `None`, indistinguishable from a no-data
result. -/
def process_single_stock : TaskOutcome → Option ScoreData
  | .success d => some d
  | .noData => none
  | .fault => none

/-- One aggregated result row (`result_item` / the failsafe dict).  The
failsafe rows carry no `fa_detail`/`ta_detail` keys, hence the `Option`. -/
structure Row where
  symbol : String
  pattern : String
  signal : String
  pe : ℚ
  roe : ℚ
  total_score : ℕ
  score_fa : ℕ
  score_ta : ℕ
  cfo_vs_ni : String
  ai_reasoning : String
  fa_detail : Option FaDetail
  ta_detail : Option TaDetail
  support_level : ℕ
  chart_url : Option String
deriving DecidableEq

/-- Python's `strip('. ')`: drop leading and trailing dots and spaces. -/
def stripDotSpace (s : List Char) : List Char :=
  ((s.dropWhile (fun c => c == '.' || c == ' ')).reverse.dropWhile
    (fun c => c == '.' || c == ' ')).reverse

/-- The zero-score failsafe row appended when `process_single_stock`
returned `None` (absent data or a swallowed per-task exception). -/
def noDataRow (symbol : String) : Row :=
  { symbol := symbol, pattern := "-", signal := "No Data", pe := 0, roe := 0,
    total_score := 0, score_fa := 0, score_ta := 0, cfo_vs_ni := "-",
    ai_reasoning := "Data Unavailable", fa_detail := none, ta_detail := none,
    support_level := 0, chart_url := none }

/-- The aggregation-loop body of `run_screener` for one completed task:
either the full `result_item` or the zero-score "No Data" failsafe row.
`chartOf` models the filename returned by `generate_chart` (`none` when
chart generation fails). -/
def rowFor (chartOf : String → Option String) (outcome : String → TaskOutcome)
    (symbol : String) : Row :=
  match process_single_stock (outcome symbol) with
  | some d =>
    let should_chart := decide (60 ≤ d.total_score)
    let pattern_label : String :=
      if should_chart then
        if containsSubStr "Wyckoff" d.notes_ta then "Wyckoff Spring"
        else if containsSubStr "Ichimoku" d.notes_ta then "Cloud Breakout"
        else if containsSubStr "MACD" d.notes_ta then "MACD Momentum"
        else d.recommendation
      else d.recommendation
    { symbol := d.symbol
      pattern := pattern_label
      signal := d.recommendation
      pe := d.pe
      roe := d.roe
      total_score := d.total_score
      score_fa := d.score_fa
      score_ta := d.score_ta
      cfo_vs_ni := "Total: " ++ toString d.total_score ++ "/100"
      ai_reasoning := ⟨stripDotSpace (d.notes_fa.data ++ ". ".data ++ d.notes_ta.data)⟩
      fa_detail := some d.fa_detail
      ta_detail := some d.ta_detail
      support_level := 0
      chart_url := if should_chart then (chartOf symbol).map (fun f => "/static/charts/" ++ f)
        else none }
  | none => noDataRow symbol

/-- Stable insertion step for `results.sort(key=..., reverse=True)`: a row
is placed before the first already-placed row whose score does not exceed
it, so equal-score rows keep their pre-sort relative order. -/
def insertByScore (x : Row) : List Row → List Row
  | [] => [x]
  | y :: ys => if x.total_score < y.total_score then y :: insertByScore x ys
    else x :: y :: ys

/-- Python's stable descending sort by `total_score`.  A stable sort's
output is uniquely determined, so insertion sort is a faithful model. -/
def sortByScoreDesc : List Row → List Row
  | [] => []
  | x :: xs => insertByScore x (sortByScoreDesc xs)

/-- `run_screener(limit, page)`.  `completion` is the order in which
`as_completed` yields the per-symbol futures: the thread pool guarantees
only that it is some permutation of the submitted candidates, so it is a
parameter of the model; theorems quantify over it. -/
def run_screener (outcome : String → TaskOutcome) (chartOf : String → Option String)
    (completion : List String) : List Row :=
  sortByScoreDesc (completion.map (rowFor chartOf outcome))

/-! ## Score bounds and note/breakdown consistency -/

def faDetailSum (d : FaDetail) : ℕ :=
  d.valuation.score + d.growth.score + d.margin.score + d.health.score

def taDetailSum (d : TaDetail) : ℕ :=
  d.trend.score + d.momentum.score + d.rsi.score + d.volume.score

def growthAlphabet : List Char := "Tăng trưởng mạnh (+%)".data ++ '-' :: digitChars

/-! ## Concrete inputs used by counterexamples and witnesses -/

/-- A valid `random.sample` outcome: the first `k` members in population
order. -/
def pickTake : List String → ℕ → List String := fun l n => l.take n

/-- Another valid `random.sample` outcome: the last `k` members, reversed. -/
def pickRev : List String → ℕ → List String := fun l n => l.reverse.take n

def peNone : String → Option ℚ := fun _ => none

def peConst10 : String → Option ℚ := fun _ => some 10

def finMinimal : Financials :=
  ⟨⟨none, none, none, none⟩, [⟨none, none, none, none⟩], [⟨none, none, none, none⟩]⟩

/-- A snapshot whose only populated field is a P/E of 9. -/
def finC4 : Financials :=
  ⟨⟨some 9, none, none, none⟩, [⟨none, none, none, none⟩], [⟨none, none, none, none⟩]⟩

/-- A 7-member universe sharing one sector label. -/
def uniC4 : List (String × String) :=
  [("AAA", "S"), ("P1", "S"), ("P2", "S"), ("P3", "S"), ("P4", "S"), ("P5", "S"), ("P6", "S")]

/-- Peer P/E fetches: the first three peers trade at 10, the rest at 100. -/
def peC4 : String → Option ℚ := fun t =>
  if t == "AAA" then some 10 else if t == "P1" then some 10
  else if t == "P2" then some 10 else if t == "P3" then some 100
  else if t == "P4" then some 100 else if t == "P5" then some 100
  else if t == "P6" then some 100 else none

/-- A 6-member sector universe for the median computation. -/
def uniC5 : List (String × String) :=
  [("P1", "S"), ("P2", "S"), ("P3", "S"), ("P4", "S"), ("P5", "S"), ("P6", "S")]

/-- Peer P/E values 1,2,3,4,5,100: the median over all six is 3.5, while
the median over any five of them is a whole member of the set. -/
def peC5 : String → Option ℚ := fun t =>
  if t == "P1" then some 1 else if t == "P2" then some 2
  else if t == "P3" then some 3 else if t == "P4" then some 4
  else if t == "P5" then some 5 else if t == "P6" then some 100 else none

def outNoData : String → TaskOutcome := fun _ => .noData

def outFault : String → TaskOutcome := fun _ => .fault

def chart0 : String → Option String := fun _ => none

/-- Fifty flat bars with zero volume: a valid ≥50-bar series whose
trailing average volume is 0. -/
def barsFlat : List Bar := List.replicate 50 ⟨1, 1, 1, 1, 0⟩

/-- An empty cache. -/
def cache0 : CacheState := ⟨fun _ => none⟩

/-! ## Theorems -/

theorem startsWithChars_append (p a b : List Char)
    (h : startsWithChars p a = true) : startsWithChars p (a ++ b) = true := by
  induction p generalizing a with
  | nil => simp [startsWithChars]
  | cons c cs ih =>
    cases a with
    | nil => simp [startsWithChars] at h
    | cons d ds =>
      simp only [startsWithChars, Bool.and_eq_true] at h
      simp only [List.cons_append, startsWithChars, Bool.and_eq_true]
      exact ⟨h.1, ih ds h.2⟩

theorem hasSubChars_of_startsWith (p t : List Char)
    (h : startsWithChars p t = true) : hasSubChars p t = true := by
  cases t with
  | nil =>
    cases p with
    | nil => rfl
    | cons c cs => simp [startsWithChars] at h
  | cons b bs => simp [hasSubChars, h]

theorem hasSubChars_nil_pat (t : List Char) : hasSubChars [] t = true := by
  cases t with
  | nil => rfl
  | cons b bs => simp [hasSubChars, startsWithChars]

theorem hasSubChars_append_left (p a b : List Char)
    (h : hasSubChars p a = true) : hasSubChars p (a ++ b) = true := by
  induction a with
  | nil =>
    simp only [hasSubChars, List.isEmpty_iff] at h
    subst h
    exact hasSubChars_nil_pat b
  | cons d ds ih =>
    simp only [hasSubChars, Bool.or_eq_true] at h
    simp only [List.cons_append, hasSubChars, Bool.or_eq_true]
    cases h with
    | inl h1 => exact Or.inl (startsWithChars_append p (d :: ds) b h1)
    | inr h2 => exact Or.inr (ih h2)

theorem hasSubChars_append_right (p a b : List Char)
    (h : hasSubChars p b = true) : hasSubChars p (a ++ b) = true := by
  induction a with
  | nil => simpa using h
  | cons d ds ih =>
    simp only [List.cons_append, hasSubChars, Bool.or_eq_true]
    exact Or.inr ih

theorem startsWithChars_append_sep (p a b : List Char) (c0 : Char)
    (hc : c0 ∉ p) : startsWithChars p (a ++ c0 :: b) = startsWithChars p a := by
  induction p generalizing a with
  | nil => simp [startsWithChars]
  | cons c cs ih =>
    cases a with
    | nil =>
      have hne : (c == c0) = false := by
        simp only [beq_eq_false_iff_ne, ne_eq]
        intro hcc
        exact hc (by simp [hcc])
      simp [startsWithChars, hne]
    | cons d ds =>
      show (c == d && startsWithChars cs (ds ++ c0 :: b)) = (c == d && startsWithChars cs ds)
      rw [ih ds (fun hm => hc (List.mem_cons_of_mem _ hm))]

theorem hasSubChars_append_sep (p a b : List Char) (c0 : Char)
    (hc : c0 ∉ p) :
    hasSubChars p (a ++ c0 :: b) = (hasSubChars p a || hasSubChars p b) := by
  induction a with
  | nil =>
    cases p with
    | nil => simp [hasSubChars_nil_pat, hasSubChars]
    | cons c cs =>
      have hne : (c == c0) = false := by
        simp only [beq_eq_false_iff_ne, ne_eq]
        intro hcc
        exact hc (by simp [hcc])
      simp [hasSubChars, startsWithChars, hne]
  | cons d ds ih =>
    show (startsWithChars p ((d :: ds) ++ c0 :: b) || hasSubChars p (ds ++ c0 :: b))
        = ((startsWithChars p (d :: ds) || hasSubChars p ds) || hasSubChars p b)
    rw [startsWithChars_append_sep p (d :: ds) b c0 hc, ih, Bool.or_assoc]

theorem startsWithChars_mem (p t : List Char)
    (h : startsWithChars p t = true) : ∀ c ∈ p, c ∈ t := by
  induction p generalizing t with
  | nil => intro c hc; simp at hc
  | cons a as ih =>
    cases t with
    | nil => simp [startsWithChars] at h
    | cons b bs =>
      simp only [startsWithChars, Bool.and_eq_true, beq_iff_eq] at h
      intro c hc
      rcases List.mem_cons.mp hc with h1 | h2
      · subst h1; simp [h.1]
      · exact List.mem_cons_of_mem _ (ih bs h.2 c h2)

theorem hasSubChars_mem (p t : List Char)
    (h : hasSubChars p t = true) : ∀ c ∈ p, c ∈ t := by
  induction t with
  | nil =>
    simp only [hasSubChars, List.isEmpty_iff] at h
    subst h
    intro c hc
    simp at hc
  | cons b bs ih =>
    simp only [hasSubChars, Bool.or_eq_true] at h
    cases h with
    | inl h1 => exact startsWithChars_mem p (b :: bs) h1
    | inr h2 => exact fun c hc => List.mem_cons_of_mem _ (ih h2 c hc)

theorem hasSubChars_eq_false_of_missing (p t : List Char) (c : Char)
    (hcp : c ∈ p) (hct : c ∉ t) : hasSubChars p t = false := by
  cases hs : hasSubChars p t with
  | false => rfl
  | true => exact absurd (hasSubChars_mem p t hs c hcp) hct

/-- A needle that contains no comma and starts with neither a comma nor a
space occurs in a `", "`-joined list iff it occurs in one of the pieces:
an occurrence cannot straddle a separator. -/
theorem hasSubChars_joinChars (c : Char) (cs : List Char)
    (hc : c ≠ ',') (hs : c ≠ ' ') (hnc : ',' ∉ c :: cs) :
    ∀ l : List (List Char),
      hasSubChars (c :: cs) (joinChars l) = l.any (fun s => hasSubChars (c :: cs) s)
  | [] => by simp [joinChars, hasSubChars]
  | [a] => by simp [joinChars]
  | a :: b :: rest => by
    have ih := hasSubChars_joinChars c cs hc hs hnc (b :: rest)
    simp only [joinChars, List.any_cons]
    rw [hasSubChars_append_sep (c :: cs) a (' ' :: joinChars (b :: rest)) ',' hnc]
    have hsw : startsWithChars (c :: cs) (' ' :: joinChars (b :: rest)) = false := by
      have : (c == ' ') = false := by simpa using hs
      simp [startsWithChars, this]
    simp only [hasSubChars, hsw, Bool.false_or, ih, List.any_cons]

theorem char_digit_mem (m : ℕ) (hm : m < 10) : Char.ofNat (48 + m) ∈ digitChars := by
  interval_cases m <;> decide

theorem natStr_mem_digits (n : ℕ) : ∀ c ∈ natStr n, c ∈ digitChars := by
  induction n using Nat.strong_induction_on with
  | _ n ih =>
    intro c hc
    rw [natStr] at hc
    by_cases h : n < 10
    · simp only [if_pos h, List.mem_singleton] at hc
      subst hc
      exact char_digit_mem n h
    · simp only [if_neg h, List.mem_append, List.mem_singleton] at hc
      cases hc with
      | inl h1 => exact ih (n / 10) (Nat.div_lt_self (by omega) (by omega)) c h1
      | inr h2 =>
        subst h2
        exact char_digit_mem (n % 10) (Nat.mod_lt _ (by omega))

theorem intStr_mem_digits (i : ℤ) : ∀ c ∈ intStr i, c ∈ '-' :: digitChars := by
  intro c hc
  rw [intStr] at hc
  by_cases h : i < 0
  · simp only [if_pos h, List.mem_cons] at hc
    cases hc with
    | inl h1 => simp [h1]
    | inr h2 => exact List.mem_cons_of_mem _ (natStr_mem_digits _ c h2)
  · simp only [if_neg h] at hc
    exact List.mem_cons_of_mem _ (natStr_mem_digits _ c hc)

/-! ## Properties of the stable descending sort -/

theorem insertByScore_perm (x : Row) (l : List Row) :
    List.Perm (insertByScore x l) (x :: l) := by
  induction l with
  | nil => exact List.Perm.refl _
  | cons y ys ih =>
    by_cases h : x.total_score < y.total_score
    · simp only [insertByScore, if_pos h]
      exact (List.Perm.cons y ih).trans (List.Perm.swap x y ys)
    · simp only [insertByScore, if_neg h]
      exact List.Perm.refl _

theorem sortByScoreDesc_perm (l : List Row) :
    List.Perm (sortByScoreDesc l) l := by
  induction l with
  | nil => exact List.Perm.refl _
  | cons x xs ih =>
    exact (insertByScore_perm x (sortByScoreDesc xs)).trans (List.Perm.cons x ih)

theorem insertByScore_pairwise (x : Row) (l : List Row)
    (h : List.Pairwise (fun a b => b.total_score ≤ a.total_score) l) :
    List.Pairwise (fun a b => b.total_score ≤ a.total_score) (insertByScore x l) := by
  induction l with
  | nil => simp [insertByScore]
  | cons y ys ih =>
    rw [List.pairwise_cons] at h
    by_cases hxy : x.total_score < y.total_score
    · simp only [insertByScore, if_pos hxy]
      rw [List.pairwise_cons]
      refine ⟨?_, ih h.2⟩
      intro z hz
      have hz2 := (insertByScore_perm x ys).mem_iff.mp hz
      rcases List.mem_cons.mp hz2 with h1 | h2
      · subst h1; exact le_of_lt hxy
      · exact h.1 z h2
    · simp only [insertByScore, if_neg hxy]
      rw [List.pairwise_cons]
      refine ⟨?_, List.pairwise_cons.mpr h⟩
      intro z hz
      rcases List.mem_cons.mp hz with h1 | h2
      · subst h1; omega
      · exact le_trans (h.1 z h2) (by omega)

theorem sortByScoreDesc_pairwise (l : List Row) :
    List.Pairwise (fun a b => b.total_score ≤ a.total_score) (sortByScoreDesc l) := by
  induction l with
  | nil => simp [sortByScoreDesc]
  | cons x xs ih => exact insertByScore_pairwise x (sortByScoreDesc xs) ih

theorem insertByScore_filter (x : Row) (l : List Row) (k : ℕ) :
    (insertByScore x l).filter (fun r => r.total_score == k)
      = if x.total_score = k
        then x :: l.filter (fun r => r.total_score == k)
        else l.filter (fun r => r.total_score == k) := by
  induction l with
  | nil =>
    by_cases hx : x.total_score = k
    · simp [insertByScore, List.filter_cons, hx]
    · have hxb : (x.total_score == k) = false := by simpa using hx
      simp [insertByScore, List.filter_cons, hxb, hx]
  | cons y ys ih =>
    by_cases hxy : x.total_score < y.total_score
    · simp only [insertByScore, if_pos hxy, List.filter_cons, ih]
      by_cases hx : x.total_score = k
      · have hyk : (y.total_score == k) = false := by
          simp only [beq_eq_false_iff_ne, ne_eq]
          omega
        simp [List.filter_cons, hx, hyk]
      · simp [List.filter_cons, hx]
    · simp only [insertByScore, if_neg hxy, List.filter_cons]
      by_cases hx : x.total_score = k
      · simp [List.filter_cons, hx]
      · have hxb : (x.total_score == k) = false := by simpa using hx
        simp [List.filter_cons, hx, hxb]

theorem sortByScoreDesc_filter (l : List Row) (k : ℕ) :
    (sortByScoreDesc l).filter (fun r => r.total_score == k)
      = l.filter (fun r => r.total_score == k) := by
  induction l with
  | nil => rfl
  | cons x xs ih =>
    show (insertByScore x (sortByScoreDesc xs)).filter (fun r => r.total_score == k) = _
    rw [insertByScore_filter]
    by_cases hx : x.total_score = k <;> simp [List.filter_cons, hx, ih]

theorem faScore_le : ∀ b1 b2 b3 b4 : Bool, faScore b1 b2 b3 b4 ≤ 40 := by decide

theorem taScore_le : ∀ tA tS mS mW rA rB vP vS vW : Bool,
    taScore tA tS mS mW rA rB vP vS vW ≤ 60 := by decide

theorem taScore_novol_le : ∀ tA tS mS mW rA rB vS vW : Bool,
    taScore tA tS mS mW rA rB false vS vW ≤ 45 := by decide

/-- Breakdown/notes consistency of the technical side, over all condition
booleans: the substring-derived `ta_detail` scores sum to the awarded
technical sub-score. -/
theorem ta_detail_consistent : ∀ tA tS mS mW rA rB vP vS vW : Bool,
    taDetailSum (ta_detailOf (joinChars (taNotes tA tS mS mW rA rB vP vS vW)))
      = taScore tA tS mS mW rA rB vP vS vW := by decide

/-- With the volume guard false, no volume note is emitted and the
substring-derived volume breakdown is zero. -/
theorem ta_volume_zero : ∀ tA tS mS mW rA rB vS vW : Bool,
    (ta_detailOf (joinChars (taNotes tA tS mS mW rA rB false vS vW))).volume.score = 0
    ∧ hasSubChars "Dòng tiền".data (joinChars (taNotes tA tS mS mW rA rB false vS vW)) = false
    ∧ hasSubChars "đột biến".data (joinChars (taNotes tA tS mS mW rA rB false vS vW)) = false := by
  decide

/-- `hasSubChars_joinChars` with the needle's side conditions as decidable
facts. -/
theorem hasSubChars_joinChars_gen (p : List Char) (l : List (List Char))
    (hne : p.isEmpty = false)
    (hhead : p.head?.all (fun c => !(c == ',') && !(c == ' ')) = true)
    (hnc : ',' ∉ p) :
    hasSubChars p (joinChars l) = l.any (fun s => hasSubChars p s) := by
  cases p with
  | nil => simp at hne
  | cons c cs =>
    have h1 : c ≠ ',' ∧ c ≠ ' ' := by
      simpa [Option.all] using hhead
    exact hasSubChars_joinChars c cs h1.1 h1.2 hnc l

theorem growthNote_chars (pct : ℤ) :
    ∀ c ∈ growthNoteChars pct, c ∈ growthAlphabet := by
  intro c hc
  unfold growthNoteChars at hc
  rcases List.mem_append.mp hc with h12 | h3
  · rcases List.mem_append.mp h12 with h1 | h2
    · have hsub : ∀ x ∈ "Tăng trưởng mạnh (+".data, x ∈ growthAlphabet := by decide
      exact hsub c h1
    · have hsub : ∀ x ∈ '-' :: digitChars, x ∈ growthAlphabet := by decide
      exact hsub c (intStr_mem_digits pct c h2)
  · have hsub : ∀ x ∈ "%)".data, x ∈ growthAlphabet := by decide
    exact hsub c h3

theorem growthNote_has_growth (pct : ℤ) :
    hasSubChars "Tăng trưởng".data (growthNoteChars pct) = true := by
  apply hasSubChars_of_startsWith
  unfold growthNoteChars
  have h1 : startsWithChars "Tăng trưởng".data "Tăng trưởng mạnh (+".data = true := by decide
  exact startsWithChars_append _ _ _ (startsWithChars_append _ _ _ h1)

theorem growthNote_no_margin (pct : ℤ) :
    hasSubChars "Biên lợi nhuận".data (growthNoteChars pct) = false := by
  apply hasSubChars_eq_false_of_missing _ _ 'B' (by decide)
  intro hB
  have hmem := growthNote_chars pct 'B' hB
  revert hmem
  decide

theorem growthNote_no_health (pct : ℤ) :
    hasSubChars "Tài chính lành mạnh".data (growthNoteChars pct) = false := by
  apply hasSubChars_eq_false_of_missing _ _ 'à' (by decide)
  intro hB
  have hmem := growthNote_chars pct 'à' hB
  revert hmem
  decide

theorem fa_marker_growth (bVal bMargin bHealth : Bool) (pct : ℤ) :
    hasSubChars "Tăng trưởng".data
      (joinChars (faNotesPresent bVal true bMargin bHealth pct)) = true := by
  rw [hasSubChars_joinChars_gen _ _ (by decide) (by decide) (by decide)]
  apply List.any_eq_true.mpr
  refine ⟨growthNoteChars pct, ?_, growthNote_has_growth pct⟩
  unfold faNotesPresent
  cases bVal <;> cases bMargin <;> cases bHealth <;> simp

theorem fa_marker_margin (bVal bMargin bHealth : Bool) (pct : ℤ) :
    hasSubChars "Biên lợi nhuận".data
      (joinChars (faNotesPresent bVal true bMargin bHealth pct)) = bMargin := by
  rw [hasSubChars_joinChars_gen _ _ (by decide) (by decide) (by decide)]
  have hV : hasSubChars "Biên lợi nhuận".data "Định giá hấp dẫn".data = false := by decide
  have hM : hasSubChars "Biên lợi nhuận".data "Biên lợi nhuận cải thiện".data = true := by decide
  have hH : hasSubChars "Biên lợi nhuận".data "Tài chính lành mạnh".data = false := by decide
  cases bVal <;> cases bMargin <;> cases bHealth <;>
    simp [faNotesPresent, hV, hM, hH, growthNote_no_margin pct]

theorem fa_marker_health (bVal bMargin bHealth : Bool) (pct : ℤ) :
    hasSubChars "Tài chính lành mạnh".data
      (joinChars (faNotesPresent bVal true bMargin bHealth pct)) = bHealth := by
  rw [hasSubChars_joinChars_gen _ _ (by decide) (by decide) (by decide)]
  have hV : hasSubChars "Tài chính lành mạnh".data "Định giá hấp dẫn".data = false := by decide
  have hM : hasSubChars "Tài chính lành mạnh".data "Biên lợi nhuận cải thiện".data = false := by
    decide
  have hH : hasSubChars "Tài chính lành mạnh".data "Tài chính lành mạnh".data = true := by decide
  cases bVal <;> cases bMargin <;> cases bHealth <;>
    simp [faNotesPresent, hV, hM, hH, growthNote_no_health pct]

/-- Breakdown/notes consistency of the fundamental side, over all
condition booleans and every interpolated percentage. -/
theorem fa_detail_consistent (bVal bGrowth bMargin bHealth : Bool) (pct : ℤ) :
    faDetailSum (fa_detailOf bVal (joinChars (faNotesPresent bVal bGrowth bMargin bHealth pct)))
      = faScore bVal bGrowth bMargin bHealth := by
  cases bGrowth with
  | false =>
    show faDetailSum
        (fa_detailOf bVal (joinChars (faNotesPresent bVal false bMargin bHealth 0)))
      = faScore bVal false bMargin bHealth
    revert bVal bMargin bHealth
    decide
  | true =>
    unfold faDetailSum fa_detailOf faScore
    rw [fa_marker_growth bVal bMargin bHealth pct, fa_marker_margin bVal bMargin bHealth pct,
      fa_marker_health bVal bMargin bHealth pct]

/-- C1: for every symbol with at least one of the financial snapshot and
the (≥50-bar) price series available, `calculate_stock_score` returns a
result whose fundamental sub-score lies in `[0, 40]`, whose technical
sub-score lies in `[0, 60]`, and whose total equals their exact sum, hence
lies in `[0, 100]` (the sub-scores are naturals, so the lower bounds are
inherent). -/
theorem C1_score_bounds (pick : List String → ℕ → List String)
    (peerPE : String → Option ℚ) (sector_info : List (String × String))
    (symbol : String) (fin : Option Financials) (raw : Option (List Bar))
    (h : fin ≠ none ∨ fetch_market_data raw ≠ none) :
    calculate_stock_score pick peerPE sector_info symbol fin (fetch_market_data raw)
        = some (scoreBody pick peerPE sector_info symbol fin (fetch_market_data raw))
    ∧ (scoreBody pick peerPE sector_info symbol fin (fetch_market_data raw)).score_fa ≤ 40
    ∧ (scoreBody pick peerPE sector_info symbol fin (fetch_market_data raw)).score_ta ≤ 60
    ∧ (scoreBody pick peerPE sector_info symbol fin (fetch_market_data raw)).total_score
        = (scoreBody pick peerPE sector_info symbol fin (fetch_market_data raw)).score_fa
          + (scoreBody pick peerPE sector_info symbol fin (fetch_market_data raw)).score_ta
    ∧ (scoreBody pick peerPE sector_info symbol fin (fetch_market_data raw)).total_score ≤ 100 := by
  have hsome : calculate_stock_score pick peerPE sector_info symbol fin (fetch_market_data raw)
      = some (scoreBody pick peerPE sector_info symbol fin (fetch_market_data raw)) := by
    unfold calculate_stock_score
    rw [if_neg]
    rcases h with h | h
    · exact fun hc => h hc.1
    · exact fun hc => h hc.2
  have hfa : (scoreBody pick peerPE sector_info symbol fin (fetch_market_data raw)).score_fa ≤ 40 := by
    cases fin with
    | none => exact Nat.zero_le 40
    | some f => exact faScore_le _ _ _ _
  have hta : (scoreBody pick peerPE sector_info symbol fin (fetch_market_data raw)).score_ta ≤ 60 := by
    cases hmd : fetch_market_data raw with
    | none => exact Nat.zero_le 60
    | some bars =>
      cases bars with
      | nil => exact Nat.zero_le 60
      | cons b bs => exact taScore_le _ _ _ _ _ _ _ _ _
  have htot : (scoreBody pick peerPE sector_info symbol fin (fetch_market_data raw)).total_score
      = (scoreBody pick peerPE sector_info symbol fin (fetch_market_data raw)).score_fa
        + (scoreBody pick peerPE sector_info symbol fin (fetch_market_data raw)).score_ta := rfl
  exact ⟨hsome, hfa, hta, htot, by omega⟩

/-- Witness for C1 at a concrete input: the snapshot is present and the
raw series is absent. -/
theorem C1_score_bounds_witness :
    ((some finMinimal : Option Financials) ≠ none ∨ fetch_market_data none ≠ none)
    ∧ calculate_stock_score pickTake peNone [] "ACB" (some finMinimal) (fetch_market_data none)
        = some (scoreBody pickTake peNone [] "ACB" (some finMinimal) (fetch_market_data none))
    ∧ (scoreBody pickTake peNone [] "ACB" (some finMinimal) (fetch_market_data none)).score_fa ≤ 40
    ∧ (scoreBody pickTake peNone [] "ACB" (some finMinimal) (fetch_market_data none)).score_ta ≤ 60
    ∧ (scoreBody pickTake peNone [] "ACB" (some finMinimal) (fetch_market_data none)).total_score
        = (scoreBody pickTake peNone [] "ACB" (some finMinimal) (fetch_market_data none)).score_fa
          + (scoreBody pickTake peNone [] "ACB" (some finMinimal) (fetch_market_data none)).score_ta
    ∧ (scoreBody pickTake peNone [] "ACB" (some finMinimal) (fetch_market_data none)).total_score
        ≤ 100 := by
  have h : (some finMinimal : Option Financials) ≠ none ∨ fetch_market_data none ≠ none :=
    Or.inl (by simp)
  have hc := C1_score_bounds pickTake peNone [] "ACB" (some finMinimal) none h
  exact ⟨h, hc.1, hc.2.1, hc.2.2.1, hc.2.2.2.1, hc.2.2.2.2⟩

/-- C3: for every input, the per-rule breakdown that the scorer rebuilds
by substring-matching the generated rationale notes is consistent with the
points actually awarded: the four `fa_detail` rule scores sum to
`score_fa` and the four `ta_detail` rule scores sum to `score_ta`. -/
theorem C3_breakdown_consistent (pick : List String → ℕ → List String)
    (peerPE : String → Option ℚ) (sector_info : List (String × String))
    (symbol : String) (fin : Option Financials) (mdf : Option (List Bar))
    (h : fin ≠ none ∨ mdf ≠ none) :
    calculate_stock_score pick peerPE sector_info symbol fin mdf
        = some (scoreBody pick peerPE sector_info symbol fin mdf)
    ∧ faDetailSum (scoreBody pick peerPE sector_info symbol fin mdf).fa_detail
        = (scoreBody pick peerPE sector_info symbol fin mdf).score_fa
    ∧ taDetailSum (scoreBody pick peerPE sector_info symbol fin mdf).ta_detail
        = (scoreBody pick peerPE sector_info symbol fin mdf).score_ta := by
  refine ⟨?_, ?_, ?_⟩
  · unfold calculate_stock_score
    rw [if_neg]
    rcases h with h | h
    · exact fun hc => h hc.1
    · exact fun hc => h hc.2
  · cases fin with
    | none => rfl
    | some f => exact fa_detail_consistent _ _ _ _ _
  · cases mdf with
    | none => rfl
    | some bars =>
      cases bars with
      | nil => rfl
      | cons b bs => exact ta_detail_consistent _ _ _ _ _ _ _ _ _

/-- Witness for C3 at a concrete input: snapshot present, series absent. -/
theorem C3_breakdown_consistent_witness :
    ((some finMinimal : Option Financials) ≠ none ∨ (none : Option (List Bar)) ≠ none)
    ∧ calculate_stock_score pickTake peNone [] "ACB" (some finMinimal) none
        = some (scoreBody pickTake peNone [] "ACB" (some finMinimal) none)
    ∧ faDetailSum (scoreBody pickTake peNone [] "ACB" (some finMinimal) none).fa_detail
        = (scoreBody pickTake peNone [] "ACB" (some finMinimal) none).score_fa
    ∧ taDetailSum (scoreBody pickTake peNone [] "ACB" (some finMinimal) none).ta_detail
        = (scoreBody pickTake peNone [] "ACB" (some finMinimal) none).score_ta := by
  have h : (some finMinimal : Option Financials) ≠ none ∨ (none : Option (List Bar)) ≠ none :=
    Or.inl (by simp)
  exact ⟨h, C3_breakdown_consistent pickTake peNone [] "ACB" (some finMinimal) none h⟩

/-- C8: a price series that is absent, empty, or shorter than 50 bars is
collapsed to absent by `fetch_market_data`; the scorer then awards a
technical sub-score of exactly 0, its technical note list is just the
no-price-data tag (no technical rule note fires), and the substring-derived
technical breakdown is all zero. -/
theorem C8_short_series (pick : List String → ℕ → List String)
    (peerPE : String → Option ℚ) (sector_info : List (String × String))
    (symbol : String) (fin : Option Financials) (raw : Option (List Bar))
    (hlen : (raw.getD []).length < 50) (hfin : fin ≠ none) :
    fetch_market_data raw = none
    ∧ calculate_stock_score pick peerPE sector_info symbol fin (fetch_market_data raw)
        = some (scoreBody pick peerPE sector_info symbol fin none)
    ∧ (scoreBody pick peerPE sector_info symbol fin none).score_ta = 0
    ∧ (scoreBody pick peerPE sector_info symbol fin none).notes_ta = "(Không có dữ liệu giá)"
    ∧ taDetailSum (scoreBody pick peerPE sector_info symbol fin none).ta_detail = 0 := by
  have hmd : fetch_market_data raw = none := by
    cases raw with
    | none => rfl
    | some df =>
      simp only [Option.getD] at hlen
      show (if df.length < 50 then none else some df) = none
      rw [if_pos hlen]
  refine ⟨hmd, ?_, rfl, rfl, rfl⟩
  rw [hmd]
  unfold calculate_stock_score
  rw [if_neg]
  exact fun hc => hfin hc.1

/-- Witness for C8 at a concrete input: absent raw series, snapshot
present. -/
theorem C8_short_series_witness :
    ((none : Option (List Bar)).getD []).length < 50
    ∧ fetch_market_data none = none
    ∧ calculate_stock_score pickTake peNone [] "ACB" (some finMinimal) (fetch_market_data none)
        = some (scoreBody pickTake peNone [] "ACB" (some finMinimal) none)
    ∧ (scoreBody pickTake peNone [] "ACB" (some finMinimal) none).score_ta = 0
    ∧ (scoreBody pickTake peNone [] "ACB" (some finMinimal) none).notes_ta
        = "(Không có dữ liệu giá)"
    ∧ taDetailSum (scoreBody pickTake peNone [] "ACB" (some finMinimal) none).ta_detail = 0 := by
  refine ⟨by decide, ?_⟩
  exact C8_short_series pickTake peNone [] "ACB" (some finMinimal) none (by decide) (by simp)

/-- C10: whenever the trailing 20-bar average volume (excluding the
current bar) is not strictly positive — the guard `avg_vol_20 > 0` is
false — the volume-confirmation rule awards 0 points regardless of the
current bar: no volume note fires, the volume breakdown is 0, and the
technical sub-score is capped by the other three rules at 45. -/
theorem C10_volume_guard (pick : List String → ℕ → List String)
    (peerPE : String → Option ℚ) (sector_info : List (String × String))
    (symbol : String) (fin : Option Financials) (bars : List Bar)
    (hguard : (taCondsOf bars).volPositive = false) :
    calculate_stock_score pick peerPE sector_info symbol fin (some bars)
        = some (scoreBody pick peerPE sector_info symbol fin (some bars))
    ∧ (scoreBody pick peerPE sector_info symbol fin (some bars)).ta_detail.volume.score = 0
    ∧ containsSubStr "Dòng tiền"
        (scoreBody pick peerPE sector_info symbol fin (some bars)).notes_ta = false
    ∧ containsSubStr "đột biến"
        (scoreBody pick peerPE sector_info symbol fin (some bars)).notes_ta = false
    ∧ (scoreBody pick peerPE sector_info symbol fin (some bars)).score_ta ≤ 45 := by
  have hsome : calculate_stock_score pick peerPE sector_info symbol fin (some bars)
      = some (scoreBody pick peerPE sector_info symbol fin (some bars)) := by
    unfold calculate_stock_score
    rw [if_neg]
    exact fun hc => Option.noConfusion hc.2
  have key : ∀ c : TaConds, c.volPositive = false →
      (ta_detailOf (joinChars (taNotes c.trendAbove c.trendStrong c.momStrong c.momWeak
          c.rsiZone c.rsiOversold c.volPositive c.volStrong c.volWeak))).volume.score = 0
      ∧ hasSubChars "Dòng tiền".data (joinChars (taNotes c.trendAbove c.trendStrong c.momStrong
          c.momWeak c.rsiZone c.rsiOversold c.volPositive c.volStrong c.volWeak)) = false
      ∧ hasSubChars "đột biến".data (joinChars (taNotes c.trendAbove c.trendStrong c.momStrong
          c.momWeak c.rsiZone c.rsiOversold c.volPositive c.volStrong c.volWeak)) = false
      ∧ taScore c.trendAbove c.trendStrong c.momStrong c.momWeak
          c.rsiZone c.rsiOversold c.volPositive c.volStrong c.volWeak ≤ 45 := by
    intro c hc
    rw [hc]
    exact ⟨(ta_volume_zero _ _ _ _ _ _ _ _).1, (ta_volume_zero _ _ _ _ _ _ _ _).2.1,
      (ta_volume_zero _ _ _ _ _ _ _ _).2.2, taScore_novol_le _ _ _ _ _ _ _ _⟩
  cases bars with
  | nil => exact ⟨hsome, rfl, rfl, rfl, Nat.zero_le 45⟩
  | cons b bs =>
    have hk := key (taCondsOf (b :: bs)) hguard
    exact ⟨hsome, hk.1, hk.2.1, hk.2.2.1, hk.2.2.2⟩

unseal Rat.add Rat.mul Rat.inv Rat.sub in
/-- Witness for C10 at a concrete input: fifty flat bars with zero volume. -/
theorem C10_volume_guard_witness :
    (taCondsOf barsFlat).volPositive = false
    ∧ calculate_stock_score pickTake peNone [] "ACB" none (some barsFlat)
        = some (scoreBody pickTake peNone [] "ACB" none (some barsFlat))
    ∧ (scoreBody pickTake peNone [] "ACB" none (some barsFlat)).ta_detail.volume.score = 0
    ∧ containsSubStr "Dòng tiền"
        (scoreBody pickTake peNone [] "ACB" none (some barsFlat)).notes_ta = false
    ∧ containsSubStr "đột biến"
        (scoreBody pickTake peNone [] "ACB" none (some barsFlat)).notes_ta = false
    ∧ (scoreBody pickTake peNone [] "ACB" none (some barsFlat)).score_ta ≤ 45 := by
  refine ⟨by decide, ?_⟩
  exact C10_volume_guard pickTake peNone [] "ACB" none barsFlat (by decide)

theorem filterMap_pos_filter (peerPE : String → Option ℚ) (l : List String) :
    l.filterMap (fun t =>
      match peerPE t with
      | some pe => if 0 < pe then some pe else none
      | none => none)
    = (l.filterMap peerPE).filter (fun pe => decide (0 < pe)) := by
  induction l with
  | nil => rfl
  | cons t ts ih =>
    cases hp : peerPE t with
    | none => simp [List.filterMap_cons, hp, ih]
    | some v =>
      by_cases hv : 0 < v
      · simp [List.filterMap_cons, hp, hv, List.filter_cons, ih]
      · simp [List.filterMap_cons, hp, hv, List.filter_cons, ih]

unseal Rat.add Rat.mul Rat.inv Rat.sub in
/-- C5 counterexample: with six peers sharing the sector label and
positive P/E values 1,2,3,4,5,100, the spec's up-to-10 sampling must take
all six (min 6 10 = 6) and returns the median 3.5, while the code samples
only `min 6 5 = 5` peers; under the sampling outcome that takes the first
five, it returns 3.  (No 5-element subsample of these six values has
median 3.5, so no sampling outcome of the code matches the spec here.) -/
theorem C5_counterexample :
    get_sector_median_pe pickTake peC5 "S" uniC5 = some 3
    ∧ median_pe_spec 10 pickTake peC5 "S" uniC5 = some (7/2)
    ∧ (3 : ℚ) ≠ 7/2 := by decide

/-- C5 amended: the sector median-P/E computation is exactly the spec's
§4.3 algorithm with a sample-size cap of 5 instead of 10: absent when
fewer than 3 symbols share the sector label; otherwise the median of the
positive fetched P/E values of an up-to-5-peer random sample, absent if
none survive. -/
theorem C5_amended (pick : List String → ℕ → List String)
    (peerPE : String → Option ℚ) (sector : String)
    (univ : List (String × String)) :
    get_sector_median_pe pick peerPE sector univ
      = median_pe_spec 5 pick peerPE sector univ := by
  simp only [get_sector_median_pe, median_pe_spec, filterMap_pos_filter]

unseal Rat.add Rat.mul Rat.inv Rat.sub in
/-- C4 counterexample: identical cached snapshot (P/E 9), identical
(absent) price series, yet two valid `random.sample` outcomes of the
sector-peer sampling give different sector medians (10 vs 100), so the
valuation rule fires in one run and not in the other: the two
`ScoreResult`s differ.  Scoring re-randomizes the peer sample on every
call, so two runs need not agree. -/
theorem C4_counterexample :
    calculate_stock_score pickTake peC4 uniC4 "AAA" (some finC4) none
      ≠ calculate_stock_score pickRev peC4 uniC4 "AAA" (some finC4) none := by decide

/-- C4 amended: scoring is deterministic once the sector-benchmark
sampling outcome is fixed: if two runs compute the same sector median
P/E, then identical cached financial data and identical price series
yield bit-identical results. -/
theorem C4_amended (pick1 pick2 : List String → ℕ → List String)
    (peerPE : String → Option ℚ) (sector_info : List (String × String))
    (symbol : String) (fin : Option Financials) (mdf : Option (List Bar))
    (h : sectorMedianFor pick1 peerPE sector_info symbol
        = sectorMedianFor pick2 peerPE sector_info symbol) :
    calculate_stock_score pick1 peerPE sector_info symbol fin mdf
      = calculate_stock_score pick2 peerPE sector_info symbol fin mdf := by
  unfold calculate_stock_score scoreBody
  rw [h]

unseal Rat.add Rat.mul Rat.inv Rat.sub in
/-- Witness for C4's amended claim: all peers trade at P/E 10, so the two
sampling outcomes agree on the median and the results coincide. -/
theorem C4_amended_witness :
    sectorMedianFor pickTake peConst10 uniC4 "AAA"
        = sectorMedianFor pickRev peConst10 uniC4 "AAA"
    ∧ calculate_stock_score pickTake peConst10 uniC4 "AAA" (some finC4) none
        = calculate_stock_score pickRev peConst10 uniC4 "AAA" (some finC4) none :=
  ⟨by decide, C4_amended pickTake pickRev peConst10 uniC4 "AAA" (some finC4) none (by decide)⟩

/-- C7 counterexample: with `limit = 60 > 50` and `page = 2` the code
ignores the page and returns the first 60 symbols, while the claimed page
arithmetic would return the 39-symbol slice `[60, 120)`. -/
theorem C7_counterexample :
    candidatesFor 60 2 = VN100_TICKERS.take 60
    ∧ candidates_spec 60 2 = (VN100_TICKERS.drop 60).take 60
    ∧ candidatesFor 60 2 ≠ candidates_spec 60 2 := by
  refine ⟨rfl, rfl, by decide⟩

/-- C7 amended: the claimed page arithmetic (slice
`[(page-1)*limit, page*limit)` with fallback to the first `limit` symbols
when the slice is empty) holds only in the `limit ≤ 50` branch; for
`limit > 50` the code takes the first `limit` symbols regardless of the
page. -/
theorem C7_amended (limit page : ℕ) (_hp : 1 ≤ page) :
    (limit ≤ 50 → candidatesFor limit page = candidates_spec limit page)
    ∧ (50 < limit → candidatesFor limit page = VN100_TICKERS.take limit) := by
  constructor
  · intro hl
    unfold candidatesFor candidates_spec
    rw [if_pos hl]
  · intro hl
    unfold candidatesFor
    rw [if_neg (by omega)]

/-- Witness for C7's amended claim at concrete pages and limits. -/
theorem C7_amended_witness :
    (1 : ℕ) ≤ 2
    ∧ candidatesFor 20 2 = candidates_spec 20 2
    ∧ candidatesFor 60 2 = VN100_TICKERS.take 60 :=
  ⟨by decide, (C7_amended 20 2 (by decide)).1 (by decide),
    (C7_amended 60 2 (by decide)).2 (by decide)⟩

/-- C6 counterexample: a run of the screener over the page
`["ACB", "BCM"]` whose two tasks complete in the order `["BCM", "ACB"]`
(a legal completion order of the pool) and tie at score 0 returns the
rows in completion order `["BCM", "ACB"]`, not in the upstream universe
order `["ACB", "BCM"]`: ties do not retain upstream symbol order. -/
theorem C6_counterexample :
    List.Perm ["BCM", "ACB"] (candidatesFor 2 1)
    ∧ (run_screener outNoData chart0 ["BCM", "ACB"]).map (fun r => r.symbol) = ["BCM", "ACB"]
    ∧ (run_screener outNoData chart0 ["BCM", "ACB"]).map (fun r => r.total_score) = [0, 0]
    ∧ candidatesFor 2 1 = ["ACB", "BCM"]
    ∧ (["BCM", "ACB"] : List String) ≠ ["ACB", "BCM"] := by
  refine ⟨?_, rfl, rfl, rfl, by decide⟩
  have h : candidatesFor 2 1 = ["ACB", "BCM"] := rfl
  rw [h]
  exact List.Perm.swap "ACB" "BCM" []

/-- C6 amended: the returned sequence is sorted descending by
`total_score`, and the sort is stable with respect to the order in which
the per-symbol tasks completed: rows with equal score appear in
task-completion order (which the thread pool does not guarantee to be the
upstream universe order). -/
theorem C6_amended (outcome : String → TaskOutcome) (chartOf : String → Option String)
    (completion : List String) (limit page k : ℕ)
    (_hperm : List.Perm completion (candidatesFor limit page)) :
    List.Pairwise (fun a b => b.total_score ≤ a.total_score)
      (run_screener outcome chartOf completion)
    ∧ (run_screener outcome chartOf completion).filter (fun r => r.total_score == k)
        = (completion.map (rowFor chartOf outcome)).filter (fun r => r.total_score == k) :=
  ⟨sortByScoreDesc_pairwise _, sortByScoreDesc_filter _ k⟩

/-- Witness for C6's amended claim at a concrete run. -/
theorem C6_amended_witness :
    List.Perm (candidatesFor 2 1) (candidatesFor 2 1)
    ∧ (List.Pairwise (fun a b => b.total_score ≤ a.total_score)
        (run_screener outNoData chart0 (candidatesFor 2 1))
      ∧ (run_screener outNoData chart0 (candidatesFor 2 1)).filter
            (fun r => r.total_score == 0)
          = ((candidatesFor 2 1).map (rowFor chart0 outNoData)).filter
              (fun r => r.total_score == 0)) :=
  ⟨List.Perm.refl _,
    C6_amended outNoData chart0 (candidatesFor 2 1) 2 1 0 (List.Perm.refl _)⟩

/-- Every row carries the symbol of its own task (given that successful
score data carries its own symbol, as `calculate_stock_score` guarantees). -/
theorem rowFor_symbol (chartOf : String → Option String) (outcome : String → TaskOutcome)
    (hsym : ∀ t d, outcome t = .success d → d.symbol = t) (t : String) :
    (rowFor chartOf outcome t).symbol = t := by
  cases h : outcome t with
  | success d =>
    have hd := hsym t d h
    simp [rowFor, process_single_stock, h, hd]
  | noData => simp [rowFor, process_single_stock, h, noDataRow]
  | fault => simp [rowFor, process_single_stock, h, noDataRow]

/-- A task that raised produces exactly the zero-score "No Data" row. -/
theorem rowFor_fault (chartOf : String → Option String) (outcome : String → TaskOutcome)
    (t : String) (h : outcome t = .fault) :
    rowFor chartOf outcome t = noDataRow t := by
  simp [rowFor, process_single_stock, h]

/-- Two outcome assignments that agree away from `s` produce the same
rows away from `s`. -/
theorem rows_filter_agree (chartOf : String → Option String)
    (outcome1 outcome2 : String → TaskOutcome) (s : String)
    (hsym1 : ∀ t d, outcome1 t = .success d → d.symbol = t)
    (hsym2 : ∀ t d, outcome2 t = .success d → d.symbol = t)
    (hagree : ∀ t, t ≠ s → outcome2 t = outcome1 t) :
    ∀ cl : List String,
      (cl.map (rowFor chartOf outcome1)).filter (fun r => !(r.symbol == s))
        = (cl.map (rowFor chartOf outcome2)).filter (fun r => !(r.symbol == s)) := by
  intro cl
  induction cl with
  | nil => rfl
  | cons t ts ih =>
    simp only [List.map_cons, List.filter_cons]
    by_cases ht : t = s
    · subst ht
      have h1 : (rowFor chartOf outcome1 t).symbol = t := rowFor_symbol _ _ hsym1 t
      have h2 : (rowFor chartOf outcome2 t).symbol = t := rowFor_symbol _ _ hsym2 t
      simp [h1, h2, ih]
    · have he : rowFor chartOf outcome2 t = rowFor chartOf outcome1 t := by
        unfold rowFor
        rw [hagree t ht]
      rw [he, ih]

/-- C2 amended: every requested symbol of the page yields exactly one
result row (the result's symbol multiset is the candidate page and no row
is lost); a symbol whose task raised contributes the zero-score placeholder
row — which the code marks "No Data", not "Error", since the per-task
`try/except` makes a fault indistinguishable from absent data — and the
rows of the sibling symbols are unaffected by the fault. -/
theorem C2_amended (limit page : ℕ) (outcome1 outcome2 : String → TaskOutcome)
    (chartOf : String → Option String) (completion : List String) (s : String)
    (hperm : List.Perm completion (candidatesFor limit page))
    (hs : s ∈ completion)
    (hfault : outcome1 s = .fault)
    (hsym1 : ∀ t d, outcome1 t = .success d → d.symbol = t)
    (hsym2 : ∀ t d, outcome2 t = .success d → d.symbol = t)
    (hagree : ∀ t, t ≠ s → outcome2 t = outcome1 t) :
    (run_screener outcome1 chartOf completion).length = (candidatesFor limit page).length
    ∧ List.Perm ((run_screener outcome1 chartOf completion).map (fun r => r.symbol))
        (candidatesFor limit page)
    ∧ noDataRow s ∈ run_screener outcome1 chartOf completion
    ∧ List.Perm
        ((run_screener outcome1 chartOf completion).filter (fun r => !(r.symbol == s)))
        ((run_screener outcome2 chartOf completion).filter (fun r => !(r.symbol == s))) := by
  have hrows1 : List.Perm (run_screener outcome1 chartOf completion)
      (completion.map (rowFor chartOf outcome1)) := sortByScoreDesc_perm _
  have hmapsym : (completion.map (rowFor chartOf outcome1)).map (fun r => r.symbol)
      = completion := by
    rw [List.map_map]
    have hpt : ∀ t ∈ completion, ((fun r => r.symbol) ∘ rowFor chartOf outcome1) t = id t :=
      fun t _ => rowFor_symbol _ _ hsym1 t
    rw [List.map_congr_left hpt, List.map_id]
  refine ⟨?_, ?_, ?_, ?_⟩
  · rw [hrows1.length_eq, List.length_map, hperm.length_eq]
  · have hm := hrows1.map (fun r => r.symbol)
    rw [hmapsym] at hm
    exact hm.trans hperm
  · apply hrows1.mem_iff.mpr
    rw [← rowFor_fault chartOf outcome1 s hfault]
    exact List.mem_map_of_mem _ hs
  · have h2 : List.Perm (run_screener outcome2 chartOf completion)
        (completion.map (rowFor chartOf outcome2)) := sortByScoreDesc_perm _
    have heq := rows_filter_agree chartOf outcome1 outcome2 s hsym1 hsym2 hagree completion
    have heqp : List.Perm
        ((completion.map (rowFor chartOf outcome1)).filter (fun r => !(r.symbol == s)))
        ((completion.map (rowFor chartOf outcome2)).filter (fun r => !(r.symbol == s))) := by
      rw [heq]
    exact (hrows1.filter _).trans (heqp.trans (h2.filter _).symm)

/-- Witness for C2's amended claim: a one-symbol page whose single task
raises. -/
theorem C2_amended_witness :
    (run_screener outFault chart0 ["ACB"]).length = (candidatesFor 1 1).length
    ∧ List.Perm ((run_screener outFault chart0 ["ACB"]).map (fun r => r.symbol))
        (candidatesFor 1 1)
    ∧ noDataRow "ACB" ∈ run_screener outFault chart0 ["ACB"]
    ∧ List.Perm
        ((run_screener outFault chart0 ["ACB"]).filter (fun r => !(r.symbol == "ACB")))
        ((run_screener outFault chart0 ["ACB"]).filter (fun r => !(r.symbol == "ACB"))) := by
  refine C2_amended 1 1 outFault outFault chart0 ["ACB"] "ACB" ?_ ?_ rfl ?_ ?_ ?_
  · have h : candidatesFor 1 1 = ["ACB"] := rfl
    rw [h]
  · simp
  · exact fun t d h => nomatch h
  · exact fun t d h => nomatch h
  · exact fun t ht => rfl

/-- C2 counterexample: a symbol whose per-task computation raises is
reported with `signal = "No Data"` (the generic zero-score placeholder),
not with an "Error" marking: the per-task `try/except` swallows the fault
before the aggregation loop can distinguish it. -/
theorem C2_counterexample :
    (run_screener outFault chart0 ["ACB"]).map (fun r => (r.symbol, r.signal, r.total_score))
        = [("ACB", "No Data", 0)]
    ∧ ("No Data" : String) ≠ "Error" :=
  ⟨rfl, by decide⟩

/-- C9: cache round-trip — a successful save followed immediately by a
load returns the same snapshot; once the entry's age reaches the 6-hour
TTL the load reports absent; and a failed best-effort cache write does
not change the snapshot that `fetch_full_financials` returns to its
caller. -/
theorem C9_cache (st : CacheState) (now now2 : ℚ) (symbol : String) (d : Financials)
    (ratioF : Option RatioRow) (cashF incF : Option (List IncomeRow))
    (httl : 6 * 3600 ≤ now2 - now) :
    load_from_cache (save_to_cache st now true symbol d) now symbol = some d
    ∧ load_from_cache (save_to_cache st now true symbol d) now2 symbol = none
    ∧ (fetch_full_financials st now false symbol ratioF cashF incF).1
        = (fetch_full_financials st now true symbol ratioF cashF incF).1 := by
  have hstore : (save_to_cache st now true symbol d).store symbol = some (d, now) := by
    simp [save_to_cache]
  refine ⟨?_, ?_, ?_⟩
  · unfold load_from_cache
    rw [hstore]
    have hc : (now - now) / 3600 < CACHE_EXPIRY_HOURS := by
      rw [sub_self]
      norm_num [CACHE_EXPIRY_HOURS]
    show (if (now - now) / 3600 < CACHE_EXPIRY_HOURS then some d else none) = some d
    rw [if_pos hc]
  · unfold load_from_cache
    rw [hstore]
    show (if (now2 - now) / 3600 < CACHE_EXPIRY_HOURS then some d else none) = none
    rw [if_neg]
    rw [CACHE_EXPIRY_HOURS, not_lt]
    exact (le_div_iff₀ (by norm_num)).mpr httl
  · unfold fetch_full_financials
    cases hl : load_from_cache st now symbol with
    | some c => rfl
    | none =>
      cases ratioF with
      | none => rfl
      | some r =>
        cases cashF with
        | none => rfl
        | some cl =>
          cases cl with
          | nil => rfl
          | cons c1 cs =>
            cases incF with
            | none => rfl
            | some il =>
              cases il with
              | nil => rfl
              | cons i1 irest => rfl

unseal Rat.add Rat.mul Rat.inv Rat.sub in
/-- Witness for C9 at a concrete cache state and clock. -/
theorem C9_cache_witness :
    (6 * 3600 : ℚ) ≤ 21600 - 0
    ∧ load_from_cache (save_to_cache cache0 0 true "ACB" finMinimal) 0 "ACB" = some finMinimal
    ∧ load_from_cache (save_to_cache cache0 0 true "ACB" finMinimal) 21600 "ACB" = none
    ∧ (fetch_full_financials cache0 0 false "ACB" none none none).1
        = (fetch_full_financials cache0 0 true "ACB" none none none).1 := by
  refine ⟨by norm_num, ?_⟩
  exact C9_cache cache0 0 21600 "ACB" finMinimal none none none (by norm_num)

end VnScreener
